import Mathlib

/-!
Shallow embedding of the DiMA pipeline core (registry, plugin loader,
orchestrator) and verification of its specified properties.

Python dicts are modelled as association lists over `String` keys with
dict semantics: assignment updates the entry in place when the key is
present and appends otherwise, deletion removes the key, lookup returns
the first (unique) binding.
-/

namespace DiMA

/-- Dict lookup: value bound to key `k`, if any. -/
def alistLookup {α : Type} : List (String × α) → String → Option α
  | [], _ => none
  | (k', v) :: rest, k => if k' = k then some v else alistLookup rest k

/-- Dict assignment `d[k] = v`: replace in place if present, append otherwise. -/
def alistInsert {α : Type} : List (String × α) → String → α → List (String × α)
  | [], k, v => [(k, v)]
  | (k', v') :: rest, k, v =>
      if k' = k then (k, v) :: rest else (k', v') :: alistInsert rest k v

/-- Dict deletion `del d[k]`: removes the binding of `k` (the key is unique). -/
def alistErase {α : Type} : List (String × α) → String → List (String × α)
  | [], _ => []
  | (k', v') :: rest, k =>
      if k' = k then rest else (k', v') :: alistErase rest k

/-- Dict key list. -/
def alistKeys {α : Type} (l : List (String × α)) : List String :=
  l.map Prod.fst

/-! ## Component registry (src/pipeline/registry.py)

A component class is an opaque value; its identity is all that matters,
so it is modelled as a natural number. Exceptions raised by registry
methods are modelled with `Except RegError`; a method that raises leaves
the registry value it was called on unchanged, exactly as a raised
Python exception leaves `self._components` untouched.
-/

abbrev Component := Nat

/-- `VALID_CATEGORIES` from registry.py. -/
def VALID_CATEGORIES : List String := ["encoder", "decoder", "metric", "stage", "dataset"]

/-- The distinct `ValueError` / `KeyError` conditions raised by the registry. -/
inductive RegError where
  | invalidCategory (category : String)
  | invalidName (name : String)
  | duplicateName (category name : String)
  | notFound (category name : String) (available : List String)
deriving Repr, DecidableEq

/-- `ComponentRegistry.__init__`: a table from category to a dict of
name to component class. -/
structure ComponentRegistry where
  components : List (String × List (String × Component))
deriving Repr

/-- `ComponentRegistry()`: every valid category starts with an empty dict. -/
def registryInit : ComponentRegistry :=
  ⟨VALID_CATEGORIES.map (fun cat => (cat, []))⟩

/-- The dict stored under a category (`self._components[category]`; the
class invariant guarantees every valid category is a key, so the default
is never reached from a reachable state). -/
def ComponentRegistry.catTable (r : ComponentRegistry) (category : String) :
    List (String × Component) :=
  (alistLookup r.components category).getD []

/-- `ComponentRegistry.register`. -/
def ComponentRegistry.register (r : ComponentRegistry) (category name : String)
    (cls : Component) (overwrite : Bool := false) :
    Except RegError ComponentRegistry :=
  if category ∉ VALID_CATEGORIES then
    .error (.invalidCategory category)
  else if name = "" then
    .error (.invalidName name)
  else if (alistLookup (r.catTable category) name).isSome ∧ overwrite = false then
    .error (.duplicateName category name)
  else
    .ok ⟨alistInsert r.components category (alistInsert (r.catTable category) name cls)⟩

/-- `ComponentRegistry.get`. -/
def ComponentRegistry.get (r : ComponentRegistry) (category name : String) :
    Except RegError Component :=
  if category ∉ VALID_CATEGORIES then
    .error (.invalidCategory category)
  else
    match alistLookup (r.catTable category) name with
    | none => .error (.notFound category name (alistKeys (r.catTable category)))
    | some cls => .ok cls

/-- `ComponentRegistry.has`. -/
def ComponentRegistry.has (r : ComponentRegistry) (category name : String) : Bool :=
  if category ∉ VALID_CATEGORIES then false
  else (alistLookup (r.catTable category) name).isSome

/-- `ComponentRegistry.unregister`: guarded deletion, never raises. -/
def ComponentRegistry.unregister (r : ComponentRegistry) (category name : String) :
    ComponentRegistry :=
  match alistLookup r.components category with
  | none => r
  | some table =>
      if (alistLookup table name).isSome then
        ⟨alistInsert r.components category (alistErase table name)⟩
      else r

/-- `ComponentRegistry.clear`: clears one category if it is a key of the
table, or empties every category dict; never raises. -/
def ComponentRegistry.clear (r : ComponentRegistry) (category : Option String) :
    ComponentRegistry :=
  match category with
  | some cat =>
      match alistLookup r.components cat with
      | none => r
      | some _ => ⟨alistInsert r.components cat []⟩
  | none => ⟨r.components.map (fun p => (p.1, []))⟩

/-! ## Plugin loader (src/pipeline/plugin_loader.py)

`load_plugin_from_path` interacts with the filesystem and the Python
module machinery. Those effects are abstracted into a `PluginEnv` that
answers, for a given path, each question the loader asks of it (does the
file exist, does the top-level code execute, is a callable `register`
attribute present, does calling it succeed), and into an explicit
`sys.modules` key set threaded through the call. What the plugin
registers into the registry is an effect of the external plugin code and
is outside the modelled state.
-/

/-- `os.path.basename` for posix paths: the part after the last slash. -/
def basename (path : String) : String :=
  ⟨(path.toList.reverse.takeWhile (fun c => c ≠ '/')).reverse⟩

/-- Stem part of `os.path.splitext` on a basename: cut at the last dot,
unless every character before that dot is itself a dot (leading-dot
files such as `.bashrc` have no extension). -/
def splitextStem (s : String) : String :=
  let cs := s.toList
  let ext := cs.reverse.takeWhile (fun c => c ≠ '.')
  if ext.length = cs.length then s
  else
    let stem := cs.take (cs.length - ext.length - 1)
    if stem.all (fun c => c = '.') then s else ⟨stem⟩

/-- `path.endswith ".py"`. -/
def endsWithPy (path : String) : Bool :=
  path.toList.reverse.take 3 = ['y', 'p', '.']

/-- The synthesized module name `"dima_plugin_" + splitext(basename(path))[0]`. -/
def synthesizedName (path : String) : String :=
  "dima_plugin_" ++ splitextStem (basename path)

/-- Outcomes of the filesystem and import-machinery steps of a load, per path. -/
structure PluginEnv where
  isFile : String → Bool
  specOk : String → Bool
  execOk : String → Bool
  execErr : String → String
  hasCallableRegister : String → Bool
  registerOk : String → Bool
  registerErr : String → String

/-- `sys.modules[name] = module`: dict keys are unique. -/
def insertModule (sysModules : List String) (name : String) : List String :=
  if name ∈ sysModules then sysModules else sysModules ++ [name]

/-- `del sys.modules[name]`. -/
def removeModule (sysModules : List String) (name : String) : List String :=
  sysModules.filter (fun m => m ≠ name)

/-- `load_plugin_from_path`: returns the raised `PluginLoadError` message
or the loaded module name, together with the resulting `sys.modules`
key set. -/
def load_plugin_from_path (env : PluginEnv) (sysModules : List String) (path : String) :
    Except String String × List String :=
  if ¬ env.isFile path then
    (.error ("Plugin file not found: " ++ path), sysModules)
  else if ¬ endsWithPy path then
    (.error ("Plugin file must be a .py file: " ++ path), sysModules)
  else if ¬ env.specOk path then
    (.error ("Could not create module spec for: " ++ path), sysModules)
  else
    let fullModuleName := synthesizedName path
    let sys1 := insertModule sysModules fullModuleName
    if ¬ env.execOk path then
      (.error ("Error executing plugin " ++ path ++ ": " ++ env.execErr path),
       removeModule sys1 fullModuleName)
    else if ¬ env.hasCallableRegister path then
      (.error ("Plugin " ++ path ++ " must define a callable register(registry) function."),
       removeModule sys1 fullModuleName)
    else if ¬ env.registerOk path then
      (.error ("Error in register() of plugin " ++ path ++ ": " ++ env.registerErr path),
       sys1)
    else
      (.ok fullModuleName, sys1)

/-! ## Orchestrator (src/pipeline/orchestrator.py)

The execution context is the untyped dict threaded through the stages;
its values are modelled by the small universe `CVal`. A stage class is
external code; instantiating and calling it is modelled by behaviour
functions that either return or raise (`Except String`). The Hydra
config passed as first argument to every `validate`/`run` call is fixed
for the whole pipeline run, so it is absorbed into those behaviour
functions. Wall-clock fields (`elapsed_seconds`) are environmental and
omitted from the result record.
-/

/-- Values stored in the execution context. -/
inductive CVal where
  | str (v : String)
  | list (v : List CVal)
  | dict (v : List (String × CVal))

/-- The execution context dict. -/
abbrev Ctx := List (String × CVal)

/-- Behaviour of an instantiated stage object: `validate(config, context)`
and `run(config, context)`, each of which may raise. -/
structure Stage where
  validateFn : Ctx → Except String (List String)
  runFn : Ctx → Except String Ctx

/-- One stage spec dict from the pipeline YAML. A field is `none` when
the key is absent from the dict, mirroring `dict.get` defaults. -/
structure StageSpec where
  name : String
  enabled : Option Bool
  params : Option (List (String × CVal))
  on_failure : Option String

/-- The pipeline configuration dict (the plugin descriptor list is
consumed only by the plugin-loading phase, see `PipelineOrchestrator.run`). -/
structure PipelineConfig where
  stages : List StageSpec
  config_path : Option String
  hydra_overrides : Option (List String)

/-- `PipelineOrchestrator._get_enabled_stages`: keep the specs whose
`enabled` flag (default true) is true, in configured order. -/
def getEnabledStages (cfg : PipelineConfig) : List StageSpec :=
  cfg.stages.filter (fun s => s.enabled.getD true)

/-- The `stage_params` sub-map built in run() step 4: each enabled spec
with a truthy (non-empty) `params` dict contributes its params keyed by
its stage name. -/
def stageParamsMap (enabled : List StageSpec) : List (String × CVal) :=
  enabled.foldl
    (fun m spec =>
      let ps := spec.params.getD []
      if ps.isEmpty then m else alistInsert m spec.name (.dict ps))
    []

/-- Run() step 4: seed the context with `config_path`, `stage_params`
and, when truthy, `hydra_overrides`. -/
def seedContext (cfg : PipelineConfig) (enabled : List StageSpec) (ctx : Ctx) : Ctx :=
  let c1 := alistInsert ctx "config_path" (.str (cfg.config_path.getD "../configs"))
  let c2 := alistInsert c1 "stage_params" (.dict (stageParamsMap enabled))
  let overrides := cfg.hydra_overrides.getD []
  if overrides.isEmpty then c2
  else alistInsert c2 "hydra_overrides" (.list (overrides.map CVal.str))

/-- `PipelineOrchestrator._resolve_stage`: registry lookup plus
instantiation `stage_cls()` (which, being external code, may itself
raise — `inst`). Raised errors carry their `str(e)` message. -/
def resolveStage (reg : ComponentRegistry) (inst : Component → Except String Stage)
    (stage_name : String) : Except String Stage :=
  if reg.has "stage" stage_name = false then
    .error ("Stage " ++ stage_name ++ " not found in registry. Available stages: "
      ++ String.intercalate ", " (alistKeys (reg.catTable "stage")))
  else
    match reg.get "stage" stage_name with
    | .ok cls => inst cls
    | .error _ =>
        -- unreachable: `has` returned true, so `get` succeeds
        .error ("Stage " ++ stage_name ++ " not found in registry.")

/-- The body of one iteration of the execution loop up to the result
record: resolve a fresh instance and call its run. -/
def stageAttempt (reg : ComponentRegistry) (inst : Component → Except String Stage)
    (spec : StageSpec) (ctx : Ctx) : Except String Ctx :=
  match resolveStage reg inst spec.name with
  | .error e => .error e
  | .ok stage => stage.runFn ctx

/-- Resolve a stage and call its validate, as in the try block of
`PipelineOrchestrator.validate`. -/
def stageValidateAttempt (reg : ComponentRegistry) (inst : Component → Except String Stage)
    (spec : StageSpec) (ctx : Ctx) : Except String (List String) :=
  match resolveStage reg inst spec.name with
  | .error e => .error e
  | .ok stage => stage.validateFn ctx

/-- `PipelineOrchestrator.validate`: per enabled stage, any exception
during resolution or validation becomes the single synthetic issue
string; stages with empty issue lists are omitted. -/
def PipelineOrchestrator.validate (reg : ComponentRegistry)
    (inst : Component → Except String Stage) (cfg : PipelineConfig) (ctx : Ctx) :
    List (String × List String) :=
  (getEnabledStages cfg).foldl
    (fun allIssues spec =>
      match stageValidateAttempt reg inst spec ctx with
      | .ok issues =>
          if issues.isEmpty then allIssues else alistInsert allIssues spec.name issues
      | .error e => alistInsert allIssues spec.name ["Error resolving stage: " ++ e])
    []

/-- The per-stage result record (status, and error message on failure). -/
structure StageResult where
  status : String
  error : Option String

/-- The dict stored for one stage in `pipeline_results`. -/
def resultRecord (res : StageResult) : CVal :=
  .dict ([("status", .str res.status)] ++
    (match res.error with
     | some e => [("error", .str e)]
     | none => []))

/-- The stage execution for-loop of `PipelineOrchestrator.run` (lines
174-203): on success record `success` and continue with the returned
context; on failure record `failed` with `str(e)`, then `abort`
(default) breaks while any other `on_failure` value proceeds. -/
def runStagesLoop (reg : ComponentRegistry) (inst : Component → Except String Stage) :
    List StageSpec → Ctx → List (String × StageResult) → Ctx × List (String × StageResult)
  | [], ctx, results => (ctx, results)
  | spec :: rest, ctx, results =>
      match stageAttempt reg inst spec ctx with
      | .ok ctx' =>
          runStagesLoop reg inst rest ctx' (alistInsert results spec.name ⟨"success", none⟩)
      | .error e =>
          let results' := alistInsert results spec.name ⟨"failed", some e⟩
          if spec.on_failure.getD "abort" = "abort" then (ctx, results')
          else runStagesLoop reg inst rest ctx results'

/-- `PipelineOrchestrator.run`. `pluginLoad` is the outcome of the
plugin-loading phase (step 1), whose registry effects are already
reflected in `reg`; `ctx` is `self.context` at entry (the empty dict
from the constructor). The validation phase of a non-dry run only
prints warnings, so its value is discarded. -/
def PipelineOrchestrator.run (pluginLoad : Except String (List String))
    (reg : ComponentRegistry) (inst : Component → Except String Stage)
    (cfg : PipelineConfig) (dry_run : Bool) (ctx : Ctx) : Except String Ctx :=
  match pluginLoad with
  | .error e => .error e
  | .ok _ =>
      let enabled := getEnabledStages cfg
      if enabled.isEmpty then .ok ctx
      else
        let ctx1 := seedContext cfg enabled ctx
        if dry_run then .ok ctx1
        else
          let _issues := PipelineOrchestrator.validate reg inst cfg ctx1
          let out := runStagesLoop reg inst enabled ctx1 []
          .ok (alistInsert out.1 "pipeline_results"
            (.dict (out.2.map (fun p => (p.1, resultRecord p.2)))))

/-- One mutating registry call, for reasoning about call sequences. -/
inductive RegOp where
  | regOp (category name : String) (cls : Component) (overwrite : Bool)
  | unregOp (category name : String)
  | clearOp (category : Option String)

/-- Apply one call: a call that raises leaves the registry unchanged. -/
def applyRegOp (r : ComponentRegistry) (op : RegOp) : ComponentRegistry :=
  match op with
  | .regOp category name cls overwrite =>
      match r.register category name cls overwrite with
      | .ok r' => r'
      | .error _ => r
  | .unregOp category name => r.unregister category name
  | .clearOp category => r.clear category

/-- The execution loop processes its whole stage list (no `abort` break
fires) when started in the given context. Used to state properties about
a failure occurring part-way through a pipeline. -/
def reachesEnd (reg : ComponentRegistry) (inst : Component → Except String Stage) :
    List StageSpec → Ctx → Bool
  | [], _ => true
  | spec :: rest, ctx =>
      match stageAttempt reg inst spec ctx with
      | .ok ctx' => reachesEnd reg inst rest ctx'
      | .error _ =>
          (spec.on_failure.getD "abort" != "abort") && reachesEnd reg inst rest ctx

/-- Fold shape shared by `stageParamsMap` and `PipelineOrchestrator.validate`:
walk the stage specs, inserting `g spec` under the stage name when it
produces a value and skipping the spec otherwise. -/
def specFold {α : Type} (g : StageSpec → Option α) (l : List StageSpec)
    (acc : List (String × α)) : List (String × α) :=
  l.foldl
    (fun m spec =>
      match g spec with
      | none => m
      | some v => alistInsert m spec.name v)
    acc

/-- The entry `stageParamsMap` produces for one spec. -/
def paramsEntry (spec : StageSpec) : Option CVal :=
  let ps := spec.params.getD []
  if ps.isEmpty then none else some (.dict ps)

/-- The entry `PipelineOrchestrator.validate` produces for one spec. -/
def validateEntry (reg : ComponentRegistry) (inst : Component → Except String Stage)
    (spec : StageSpec) (ctx : Ctx) : Option (List String) :=
  match stageValidateAttempt reg inst spec ctx with
  | .ok issues => if issues.isEmpty then none else some issues
  | .error e => some ["Error resolving stage: " ++ e]

/-! ## Concrete fixtures used by witnesses and counterexamples -/

/-- Instantiation environment with no stage classes. -/
def instNone : Component → Except String Stage :=
  fun _ => .error "no such class"

/-- Instantiation: component 0 is a stage whose run raises `boom`;
every other component is a stage whose run records that it ran. -/
def instW : Component → Except String Stage :=
  fun c =>
    if c = 0 then .ok ⟨fun _ => .ok [], fun _ => .error "boom"⟩
    else .ok ⟨fun _ => .ok ["issue"], fun ctx => .ok (alistInsert ctx "ran" (.str "yes"))⟩

/-- A registry whose stage category holds stages `a` (component 0) and
`b` (component 1). -/
def regW : ComponentRegistry :=
  ⟨[("encoder", []), ("decoder", []), ("metric", []),
    ("stage", [("a", 0), ("b", 1)]), ("dataset", [])]⟩

/-- Stage spec `a` with all optional keys absent. -/
def specA : StageSpec := ⟨"a", none, none, none⟩

/-- Stage spec `a` with `on_failure: continue`. -/
def specAcont : StageSpec := ⟨"a", none, none, some "continue"⟩

/-- Stage spec `b` with all optional keys absent. -/
def specB : StageSpec := ⟨"b", none, none, none⟩

/-- Two-stage pipeline `[a, b]`, both implicitly enabled. -/
def cfgAB : PipelineConfig := ⟨[specA, specB], none, none⟩

/-- Two-stage pipeline `[a (on_failure: continue), b]`. -/
def cfgABcont : PipelineConfig := ⟨[specAcont, specB], none, none⟩

/-- Pipeline whose only stage carries an empty `params` dict, and whose
`hydra_overrides` key is present but holds the empty list. -/
def cfgEmptyParams : PipelineConfig := ⟨[⟨"a", none, some [], none⟩], none, some []⟩

/-- Pipeline with no enabled stage: one stage, explicitly disabled. -/
def cfgDisabled : PipelineConfig := ⟨[⟨"a", some false, none, none⟩], none, none⟩

/-- Pipeline whose only stage has a non-empty params dict, with an
explicit config path and a non-empty override token list. -/
def cfgParams : PipelineConfig :=
  ⟨[⟨"a", none, some [("k", .str "v")], none⟩], some "cfgs", some ["x=1"]⟩

/-- Pipeline naming an unregistered stage `zzz` followed by stage `b`. -/
def cfgVal : PipelineConfig :=
  ⟨[⟨"zzz", none, none, none⟩, specB], none, none⟩

/-- Plugin environment in which every step succeeds except the call to
the register entry point, which raises `boom`. -/
def envRegisterRaises : PluginEnv :=
  ⟨fun _ => true, fun _ => true, fun _ => true, fun _ => "x",
   fun _ => true, fun _ => false, fun _ => "boom"⟩

/-- Plugin environment in which the top-level execution of the plugin
raises `bad syntax`. -/
def envExecRaises : PluginEnv :=
  ⟨fun _ => true, fun _ => true, fun _ => false, fun _ => "bad syntax",
   fun _ => true, fun _ => true, fun _ => "x"⟩

/-- Plugin environment in which every loading step succeeds. -/
def envAllOk : PluginEnv :=
  ⟨fun _ => true, fun _ => true, fun _ => true, fun _ => "x",
   fun _ => true, fun _ => true, fun _ => "x"⟩

/-! ## Association-list lemmas -/

theorem alistLookup_insert_self {α : Type} (l : List (String × α)) (k : String) (v : α) :
    alistLookup (alistInsert l k v) k = some v := by
  induction l with
  | nil => simp [alistInsert, alistLookup]
  | cons hd tl ih =>
      obtain ⟨k', v'⟩ := hd
      by_cases h : k' = k
      · simp [alistInsert, alistLookup, h]
      · simp [alistInsert, alistLookup, h, ih]

theorem alistLookup_insert_ne {α : Type} (l : List (String × α)) (k k' : String) (v : α)
    (h : k' ≠ k) : alistLookup (alistInsert l k v) k' = alistLookup l k' := by
  have hne : k ≠ k' := fun hh => h hh.symm
  induction l with
  | nil => simp [alistInsert, alistLookup, hne]
  | cons hd tl ih =>
      obtain ⟨k₀, v₀⟩ := hd
      by_cases h₀ : k₀ = k
      · subst h₀
        simp [alistInsert, alistLookup, hne]
      · simp only [alistInsert, if_neg h₀]
        by_cases h₁ : k₀ = k'
        · simp [alistLookup, h₁]
        · simp [alistLookup, h₁, ih]

theorem alistKeys_insert_mem {α : Type} (l : List (String × α)) (k : String) (v w : α)
    (h : alistLookup l k = some v) : alistKeys (alistInsert l k w) = alistKeys l := by
  induction l with
  | nil => simp [alistLookup] at h
  | cons hd tl ih =>
      obtain ⟨k₀, v₀⟩ := hd
      by_cases h₀ : k₀ = k
      · simp [alistInsert, alistKeys, h₀]
      · simp only [alistLookup, if_neg h₀] at h
        simp only [alistInsert, if_neg h₀, alistKeys, List.map_cons]
        have hih := ih h
        simp only [alistKeys] at hih
        rw [hih]

theorem alistLookup_mem_keys {α : Type} (l : List (String × α)) (k : String)
    (h : k ∈ alistKeys l) : ∃ v, alistLookup l k = some v := by
  induction l with
  | nil => simp [alistKeys] at h
  | cons hd tl ih =>
      obtain ⟨k₀, v₀⟩ := hd
      by_cases h₀ : k₀ = k
      · exact ⟨v₀, by simp [alistLookup, h₀]⟩
      · simp only [alistKeys, List.map_cons, List.mem_cons] at h
        rcases h with h | h
        · exact absurd h.symm h₀
        · obtain ⟨v, hv⟩ := ih h
          exact ⟨v, by simp [alistLookup, h₀, hv]⟩

theorem alistLookup_map_snd {α β : Type} (f : α → β) (l : List (String × α)) (k : String) :
    alistLookup (l.map (fun p => (p.1, f p.2))) k = (alistLookup l k).map f := by
  induction l with
  | nil => simp [alistLookup]
  | cons hd tl ih =>
      obtain ⟨k₀, v₀⟩ := hd
      by_cases h₀ : k₀ = k
      · simp [alistLookup, h₀]
      · simp [alistLookup, h₀, ih]

/-! ## specFold lemmas: how the parameter and validation folds answer lookups -/

theorem specFold_lookup_not_mem {α : Type} (g : StageSpec → Option α) (k : String) :
    ∀ (l : List StageSpec) (acc : List (String × α)), k ∉ l.map StageSpec.name →
      alistLookup (specFold g l acc) k = alistLookup acc k := by
  intro l
  induction l with
  | nil => intro acc _; simp [specFold]
  | cons hd tl ih =>
      intro acc h
      simp only [List.map_cons, List.mem_cons, not_or] at h
      obtain ⟨hk, htl⟩ := h
      show alistLookup (specFold g tl (match g hd with
        | none => acc
        | some v => alistInsert acc hd.name v)) k = alistLookup acc k
      rw [ih _ htl]
      cases hg : g hd with
      | none => rfl
      | some v => exact alistLookup_insert_ne _ _ _ _ hk

theorem specFold_lookup_mem {α : Type} (g : StageSpec → Option α) (spec : StageSpec) :
    ∀ (l : List StageSpec), spec ∈ l → (l.map StageSpec.name).Nodup →
      ∀ (acc : List (String × α)), alistLookup acc spec.name = none →
      alistLookup (specFold g l acc) spec.name = g spec := by
  intro l
  induction l with
  | nil => intro hmem; simp at hmem
  | cons hd tl ih =>
      intro hmem hnodup acc hacc
      simp only [List.map_cons, List.nodup_cons] at hnodup
      obtain ⟨hhd, htl⟩ := hnodup
      rcases List.mem_cons.mp hmem with heq | hmemtl
      · subst heq
        show alistLookup (specFold g tl (match g spec with
          | none => acc
          | some v => alistInsert acc spec.name v)) spec.name = g spec
        have hnm : spec.name ∉ tl.map StageSpec.name := hhd
        rw [specFold_lookup_not_mem g _ tl _ hnm]
        cases hg : g spec with
        | none => exact hacc
        | some v => exact alistLookup_insert_self _ _ _
      · have hne : spec.name ≠ hd.name := by
          intro hh
          exact hhd (hh ▸ List.mem_map_of_mem StageSpec.name hmemtl)
        show alistLookup (specFold g tl (match g hd with
          | none => acc
          | some v => alistInsert acc hd.name v)) spec.name = g spec
        refine ih hmemtl htl _ ?_
        cases hg : g hd with
        | none => exact hacc
        | some v => rw [alistLookup_insert_ne _ _ _ _ hne]; exact hacc

/-- `stageParamsMap` is the parameter instance of `specFold`. -/
theorem stageParamsMap_eq_specFold (enabled : List StageSpec) :
    stageParamsMap enabled = specFold paramsEntry enabled [] := by
  show List.foldl _ _ enabled = List.foldl _ _ enabled
  congr 1
  funext m spec
  simp only [paramsEntry]
  by_cases h : (spec.params.getD []).isEmpty
  · simp [h]
  · simp [h]

/-- `PipelineOrchestrator.validate` is the validation instance of `specFold`. -/
theorem validate_eq_specFold (reg : ComponentRegistry)
    (inst : Component → Except String Stage) (cfg : PipelineConfig) (ctx : Ctx) :
    PipelineOrchestrator.validate reg inst cfg ctx =
      specFold (fun spec => validateEntry reg inst spec ctx) (getEnabledStages cfg) [] := by
  show List.foldl _ _ _ = List.foldl _ _ _
  congr 1
  funext m spec
  simp only [validateEntry]
  cases h : stageValidateAttempt reg inst spec ctx with
  | ok issues =>
      by_cases hi : issues.isEmpty
      · simp [hi]
      · simp [hi]
  | error e => simp

/-! ## Execution-loop lemmas -/

theorem runStagesLoop_lookup_not_mem (reg : ComponentRegistry)
    (inst : Component → Except String Stage) (k : String) :
    ∀ (l : List StageSpec) (ctx : Ctx) (results : List (String × StageResult)),
      k ∉ l.map StageSpec.name →
      alistLookup (runStagesLoop reg inst l ctx results).2 k = alistLookup results k := by
  intro l
  induction l with
  | nil => intro ctx results _; rfl
  | cons spec rest ih =>
      intro ctx results h
      simp only [List.map_cons, List.mem_cons, not_or] at h
      obtain ⟨hk, htl⟩ := h
      cases hatt : stageAttempt reg inst spec ctx with
      | ok ctx' =>
          simp only [runStagesLoop, hatt]
          rw [ih _ _ htl, alistLookup_insert_ne _ _ _ _ hk]
      | error e =>
          simp only [runStagesLoop, hatt]
          by_cases habort : spec.on_failure.getD "abort" = "abort"
          · rw [if_pos habort]
            exact alistLookup_insert_ne _ _ _ _ hk
          · rw [if_neg habort, ih _ _ htl, alistLookup_insert_ne _ _ _ _ hk]

theorem runStagesLoop_append (reg : ComponentRegistry)
    (inst : Component → Except String Stage) :
    ∀ (pre l2 : List StageSpec) (ctx : Ctx) (results : List (String × StageResult)),
      reachesEnd reg inst pre ctx = true →
      runStagesLoop reg inst (pre ++ l2) ctx results =
        runStagesLoop reg inst l2 (runStagesLoop reg inst pre ctx results).1
          (runStagesLoop reg inst pre ctx results).2 := by
  intro pre
  induction pre with
  | nil => intro l2 ctx results _; rfl
  | cons spec rest ih =>
      intro l2 ctx results hreach
      cases hatt : stageAttempt reg inst spec ctx with
      | ok ctx' =>
          have hr : reachesEnd reg inst rest ctx' = true := by
            simpa [reachesEnd, hatt] using hreach
          simp only [List.cons_append, runStagesLoop, hatt]
          exact ih l2 ctx' _ hr
      | error e =>
          have hr : (spec.on_failure.getD "abort" != "abort") = true ∧
              reachesEnd reg inst rest ctx = true := by
            simpa [reachesEnd, hatt, Bool.and_eq_true] using hreach
          have hne : spec.on_failure.getD "abort" ≠ "abort" := by
            simpa using hr.1
          simp only [List.cons_append, runStagesLoop, hatt, if_neg hne]
          exact ih l2 ctx _ hr.2

theorem runStagesLoop_cons_ok (reg : ComponentRegistry)
    (inst : Component → Except String Stage) (spec : StageSpec) (rest : List StageSpec)
    (ctx ctx' : Ctx) (results : List (String × StageResult))
    (hatt : stageAttempt reg inst spec ctx = .ok ctx') :
    runStagesLoop reg inst (spec :: rest) ctx results =
      runStagesLoop reg inst rest ctx' (alistInsert results spec.name ⟨"success", none⟩) := by
  simp only [runStagesLoop, hatt]

theorem runStagesLoop_cons_fail_abort (reg : ComponentRegistry)
    (inst : Component → Except String Stage) (spec : StageSpec) (rest : List StageSpec)
    (ctx : Ctx) (results : List (String × StageResult)) (e : String)
    (hatt : stageAttempt reg inst spec ctx = .error e)
    (habort : spec.on_failure.getD "abort" = "abort") :
    runStagesLoop reg inst (spec :: rest) ctx results =
      (ctx, alistInsert results spec.name ⟨"failed", some e⟩) := by
  simp only [runStagesLoop, hatt, if_pos habort]

theorem runStagesLoop_cons_fail_continue (reg : ComponentRegistry)
    (inst : Component → Except String Stage) (spec : StageSpec) (rest : List StageSpec)
    (ctx : Ctx) (results : List (String × StageResult)) (e : String)
    (hatt : stageAttempt reg inst spec ctx = .error e)
    (hcont : spec.on_failure.getD "abort" ≠ "abort") :
    runStagesLoop reg inst (spec :: rest) ctx results =
      runStagesLoop reg inst rest ctx (alistInsert results spec.name ⟨"failed", some e⟩) := by
  simp only [runStagesLoop, hatt, if_neg hcont]

/-! ## Module-table lemmas -/

theorem not_mem_removeModule (l : List String) (n : String) :
    n ∉ removeModule l n := by
  simp [removeModule, List.mem_filter]

theorem mem_insertModule (l : List String) (n : String) :
    n ∈ insertModule l n := by
  by_cases h : n ∈ l <;> simp [insertModule, h]

theorem synthesizedName_take12 (path : String) :
    (synthesizedName path).toList.take 12 = ("dima_plugin_").toList := by
  show (("dima_plugin_" ++ splitextStem (basename path)).data).take 12 = _
  rw [String.data_append]
  have hlen : ("dima_plugin_".data).length = 12 := rfl
  rw [← hlen]
  exact List.take_left _ _

theorem string_toList_inj (s t : String) (h : s.toList = t.toList) : s = t := by
  cases s
  cases t
  simp only [String.toList] at h
  exact congrArg String.mk h

/-! ## Stage-behaviour congruence: run() does not consult validateFn -/

theorem stageAttempt_congr (reg : ComponentRegistry)
    (inst inst2 : Component → Except String Stage)
    (hagree : ∀ c, (inst c).map Stage.runFn = (inst2 c).map Stage.runFn)
    (spec : StageSpec) (ctx : Ctx) :
    stageAttempt reg inst spec ctx = stageAttempt reg inst2 spec ctx := by
  by_cases hhas : reg.has "stage" spec.name = false
  · simp [stageAttempt, resolveStage, hhas]
  · cases hget : reg.get "stage" spec.name with
    | error e => simp [stageAttempt, resolveStage, hhas, hget]
    | ok cls =>
        simp only [stageAttempt, resolveStage, if_neg hhas, hget]
        have h := hagree cls
        cases hc : inst cls with
        | error a =>
            cases hc2 : inst2 cls with
            | error b =>
                rw [hc, hc2] at h
                simp only [Except.map] at h
                injection h with hab
                show (Except.error a : Except String Ctx) = Except.error b
                rw [hab]
            | ok s2 =>
                rw [hc, hc2] at h
                simp [Except.map] at h
        | ok s =>
            cases hc2 : inst2 cls with
            | error b =>
                rw [hc, hc2] at h
                simp [Except.map] at h
            | ok s2 =>
                rw [hc, hc2] at h
                simp only [Except.map] at h
                injection h with hs
                show s.runFn ctx = s2.runFn ctx
                rw [hs]

theorem runStagesLoop_congr (reg : ComponentRegistry)
    (inst inst2 : Component → Except String Stage)
    (hagree : ∀ c, (inst c).map Stage.runFn = (inst2 c).map Stage.runFn) :
    ∀ (l : List StageSpec) (ctx : Ctx) (results : List (String × StageResult)),
      runStagesLoop reg inst l ctx results = runStagesLoop reg inst2 l ctx results := by
  intro l
  induction l with
  | nil => intro ctx results; rfl
  | cons spec rest ih =>
      intro ctx results
      have hat := stageAttempt_congr reg inst inst2 hagree spec ctx
      cases hatt : stageAttempt reg inst spec ctx with
      | ok ctx' =>
          rw [runStagesLoop_cons_ok reg inst spec rest ctx ctx' results hatt,
            runStagesLoop_cons_ok reg inst2 spec rest ctx ctx' results (hat.symm.trans hatt)]
          exact ih ctx' _
      | error e =>
          by_cases habort : spec.on_failure.getD "abort" = "abort"
          · rw [runStagesLoop_cons_fail_abort reg inst spec rest ctx results e hatt habort,
              runStagesLoop_cons_fail_abort reg inst2 spec rest ctx results e
                (hat.symm.trans hatt) habort]
          · rw [runStagesLoop_cons_fail_continue reg inst spec rest ctx results e hatt habort,
              runStagesLoop_cons_fail_continue reg inst2 spec rest ctx results e
                (hat.symm.trans hatt) habort]
            exact ih ctx _

/-! ## Registry key-set invariant -/

theorem applyRegOp_keys (r : ComponentRegistry) (op : RegOp)
    (h : alistKeys r.components = VALID_CATEGORIES) :
    alistKeys (applyRegOp r op).components = VALID_CATEGORIES := by
  cases op with
  | regOp category name cls ow =>
      by_cases hcat : category ∈ VALID_CATEGORIES
      · by_cases hname : name = ""
        · simp [applyRegOp, ComponentRegistry.register, hcat, hname, h]
        · by_cases hdup : (alistLookup (r.catTable category) name).isSome = true ∧ ow = false
          · simp [applyRegOp, ComponentRegistry.register, hcat, hname, hdup, h]
          · have hmem : category ∈ alistKeys r.components := h ▸ hcat
            obtain ⟨table, htable⟩ := alistLookup_mem_keys _ _ hmem
            simp only [applyRegOp, ComponentRegistry.register, hcat, not_true_eq_false,
              if_false, if_neg hname, if_neg hdup]
            rw [alistKeys_insert_mem _ _ _ _ htable]
            exact h
      · simp [applyRegOp, ComponentRegistry.register, hcat, h]
  | unregOp category name =>
      cases hl : alistLookup r.components category with
      | none => simp [applyRegOp, ComponentRegistry.unregister, hl, h]
      | some table =>
          by_cases hn : (alistLookup table name).isSome = true
          · simp only [applyRegOp, ComponentRegistry.unregister, hl, if_pos hn]
            rw [alistKeys_insert_mem _ _ _ _ hl]
            exact h
          · simp [applyRegOp, ComponentRegistry.unregister, hl, hn, h]
  | clearOp category =>
      cases category with
      | none =>
          have hcomp : (Prod.fst ∘ fun (p : String × List (String × Component)) =>
              (p.1, ([] : List (String × Component)))) = Prod.fst := funext fun p => rfl
          simp only [applyRegOp, ComponentRegistry.clear, alistKeys, List.map_map, hcomp]
          exact h
      | some cat =>
          cases hl : alistLookup r.components cat with
          | none => simp [applyRegOp, ComponentRegistry.clear, hl, h]
          | some table =>
              simp only [applyRegOp, ComponentRegistry.clear, hl]
              rw [alistKeys_insert_mem _ _ _ _ hl]
              exact h

theorem foldl_applyRegOp_keys (ops : List RegOp) :
    ∀ r : ComponentRegistry, alistKeys r.components = VALID_CATEGORIES →
      alistKeys ((ops.foldl applyRegOp r).components) = VALID_CATEGORIES := by
  induction ops with
  | nil => intro r h; exact h
  | cons op rest ih => intro r h; exact ih _ (applyRegOp_keys r op h)

/-! ## run() unfolding equations -/

theorem seedContext_eq (cfg : PipelineConfig) (enabled : List StageSpec) (ctx : Ctx) :
    seedContext cfg enabled ctx =
      if (cfg.hydra_overrides.getD []).isEmpty then
        alistInsert (alistInsert ctx "config_path"
            (.str (cfg.config_path.getD "../configs")))
          "stage_params" (.dict (stageParamsMap enabled))
      else
        alistInsert (alistInsert (alistInsert ctx "config_path"
            (.str (cfg.config_path.getD "../configs")))
          "stage_params" (.dict (stageParamsMap enabled)))
          "hydra_overrides" (.list ((cfg.hydra_overrides.getD []).map CVal.str)) := rfl

theorem run_dry_eq (loaded : List String) (reg : ComponentRegistry)
    (inst : Component → Except String Stage) (cfg : PipelineConfig) (ctx : Ctx) :
    PipelineOrchestrator.run (.ok loaded) reg inst cfg true ctx =
      if (getEnabledStages cfg).isEmpty then .ok ctx
      else .ok (seedContext cfg (getEnabledStages cfg) ctx) := rfl

theorem run_exec_eq (loaded : List String) (reg : ComponentRegistry)
    (inst : Component → Except String Stage) (cfg : PipelineConfig) (ctx : Ctx) :
    PipelineOrchestrator.run (.ok loaded) reg inst cfg false ctx =
      if (getEnabledStages cfg).isEmpty then .ok ctx
      else .ok (alistInsert (runStagesLoop reg inst (getEnabledStages cfg)
          (seedContext cfg (getEnabledStages cfg) ctx) []).1 "pipeline_results"
        (.dict ((runStagesLoop reg inst (getEnabledStages cfg)
          (seedContext cfg (getEnabledStages cfg) ctx) []).2.map
          (fun p => (p.1, resultRecord p.2))))) := rfl

theorem seedContext_lookup_other (cfg : PipelineConfig) (enabled : List StageSpec)
    (ctx : Ctx) (k : String) (h1 : k ≠ "config_path") (h2 : k ≠ "stage_params")
    (h3 : k ≠ "hydra_overrides") :
    alistLookup (seedContext cfg enabled ctx) k = alistLookup ctx k := by
  rw [seedContext_eq]
  by_cases hov : (cfg.hydra_overrides.getD []).isEmpty
  · rw [if_pos hov, alistLookup_insert_ne _ _ _ _ h2, alistLookup_insert_ne _ _ _ _ h1]
  · rw [if_neg hov, alistLookup_insert_ne _ _ _ _ h3, alistLookup_insert_ne _ _ _ _ h2,
      alistLookup_insert_ne _ _ _ _ h1]

/-! ## Claim theorems -/

/-- C3: a dry run that returns yields a context with no pipeline_results
key, whatever the configured stages; and its outcome is independent of
the registry and of every stage behaviour (no stage run is invoked). -/
theorem claim_C3_theorem (pluginLoad : Except String (List String))
    (reg : ComponentRegistry) (inst : Component → Except String Stage)
    (cfg : PipelineConfig) (ctx : Ctx)
    (hctx : alistLookup ctx "pipeline_results" = none) :
    (∀ c, PipelineOrchestrator.run pluginLoad reg inst cfg true ctx = .ok c →
      alistLookup c "pipeline_results" = none) ∧
    (∀ (reg2 : ComponentRegistry) (inst2 : Component → Except String Stage),
      PipelineOrchestrator.run pluginLoad reg2 inst2 cfg true ctx =
        PipelineOrchestrator.run pluginLoad reg inst cfg true ctx) := by
  constructor
  · intro c hc
    cases pluginLoad with
    | error e => exact Except.noConfusion hc
    | ok loaded =>
        rw [run_dry_eq] at hc
        by_cases hemp : (getEnabledStages cfg).isEmpty
        · rw [if_pos hemp] at hc
          injection hc with h
          subst h
          exact hctx
        · rw [if_neg hemp] at hc
          injection hc with h
          subst h
          rw [seedContext_lookup_other cfg _ ctx _ (by decide) (by decide) (by decide)]
          exact hctx
  · intro reg2 inst2
    cases pluginLoad <;> rfl

/-- C3 witness: the dry run of the two-stage pipeline returns the seeded
context, which has no pipeline_results key. -/
theorem claim_C3_witness :
    alistLookup (seedContext cfgAB (getEnabledStages cfgAB) []) "pipeline_results" = none :=
  (claim_C3_theorem (.ok []) regW instW cfgAB [] rfl).1 _ rfl

/-- C5: with zero enabled stages, run returns the input context
unchanged, successfully, and the result carries no pipeline_results key;
the enabled-stage list is the order-preserving filter of the configured
specs on the enabled flag, which defaults to true. -/
theorem claim_C5_theorem (loaded : List String) (reg : ComponentRegistry)
    (inst : Component → Except String Stage) (cfg : PipelineConfig)
    (dry_run : Bool) (ctx : Ctx)
    (hempty : getEnabledStages cfg = [])
    (hctx : alistLookup ctx "pipeline_results" = none) :
    PipelineOrchestrator.run (.ok loaded) reg inst cfg dry_run ctx = .ok ctx ∧
    (∀ c, PipelineOrchestrator.run (.ok loaded) reg inst cfg dry_run ctx = .ok c →
      alistLookup c "pipeline_results" = none) ∧
    getEnabledStages cfg = cfg.stages.filter (fun s => s.enabled.getD true) := by
  have hrun : PipelineOrchestrator.run (.ok loaded) reg inst cfg dry_run ctx = .ok ctx := by
    cases dry_run
    · rw [run_exec_eq, hempty]
      rfl
    · rw [run_dry_eq, hempty]
      rfl
  refine ⟨hrun, ?_, rfl⟩
  intro c hc
  rw [hrun] at hc
  injection hc with h
  subst h
  exact hctx

/-- C5 witness: a pipeline whose only stage is disabled short-circuits,
returning the empty input context. -/
theorem claim_C5_witness :
    PipelineOrchestrator.run (.ok []) regW instW cfgDisabled false [] = .ok [] :=
  (claim_C5_theorem [] regW instW cfgDisabled false [] rfl rfl).1

/-- C2: when a traversed stage raises and its on_failure policy resolves
to abort (also the default for an absent key), the failed stage gets a
pipeline_results entry with status failed and the error message, and no
subsequent configured stage gets any entry at all. `pre` is the prefix
of enabled stages executed without an abort before the failing one. -/
theorem claim_C2_theorem (loaded : List String) (reg : ComponentRegistry)
    (inst : Component → Except String Stage) (cfg : PipelineConfig) (ctx : Ctx)
    (pre : List StageSpec) (spec : StageSpec) (post : List StageSpec) (e : String)
    (henab : getEnabledStages cfg = pre ++ spec :: post)
    (hreach : reachesEnd reg inst pre (seedContext cfg (pre ++ spec :: post) ctx) = true)
    (hfail : stageAttempt reg inst spec
      (runStagesLoop reg inst pre (seedContext cfg (pre ++ spec :: post) ctx) []).1 =
        .error e)
    (habort : spec.on_failure.getD "abort" = "abort") :
    ∃ rctx, PipelineOrchestrator.run (.ok loaded) reg inst cfg false ctx = .ok rctx ∧
      ∃ m, alistLookup rctx "pipeline_results" = some (.dict m) ∧
        alistLookup m spec.name = some (resultRecord ⟨"failed", some e⟩) ∧
        ∀ s ∈ post, s.name ≠ spec.name → s.name ∉ pre.map StageSpec.name →
          alistLookup m s.name = none := by
  have hemp : ¬ ((pre ++ spec :: post).isEmpty = true) := by cases pre <;> simp
  rw [run_exec_eq, henab, if_neg hemp,
    runStagesLoop_append reg inst pre (spec :: post) _ [] hreach,
    runStagesLoop_cons_fail_abort reg inst spec post _ _ e hfail habort]
  refine ⟨_, rfl, _, alistLookup_insert_self _ _ _, ?_, ?_⟩
  · rw [alistLookup_map_snd, alistLookup_insert_self]
    rfl
  · intro s _ hne hpre
    rw [alistLookup_map_snd, alistLookup_insert_ne _ _ _ _ hne,
      runStagesLoop_lookup_not_mem reg inst _ pre _ [] hpre]
    rfl

/-- C2 witness: in the two-stage pipeline, stage a fails with the
default (absent) on_failure policy; it is recorded failed with its error
and stage b is absent from the result map. -/
theorem claim_C2_witness :
    ∃ rctx, PipelineOrchestrator.run (.ok []) regW instW cfgAB false [] = .ok rctx ∧
      ∃ m, alistLookup rctx "pipeline_results" = some (.dict m) ∧
        alistLookup m "a" = some (resultRecord ⟨"failed", some "boom"⟩) ∧
        ∀ s ∈ [specB], s.name ≠ "a" → s.name ∉ ([] : List StageSpec).map StageSpec.name →
          alistLookup m s.name = none :=
  claim_C2_theorem [] regW instW cfgAB [] [] specA [specB] "boom" rfl rfl rfl rfl

/-- C6: when a traversed stage raises under on_failure continue, it is
recorded failed with its error and iteration proceeds: the next enabled
stage is resolved and run, and when its run returns it is recorded as
success. -/
theorem claim_C6_theorem (loaded : List String) (reg : ComponentRegistry)
    (inst : Component → Except String Stage) (cfg : PipelineConfig) (ctx : Ctx)
    (pre : List StageSpec) (spec next : StageSpec) (post : List StageSpec)
    (e : String) (ctxN : Ctx)
    (henab : getEnabledStages cfg = pre ++ spec :: next :: post)
    (hreach : reachesEnd reg inst pre (seedContext cfg (pre ++ spec :: next :: post) ctx) = true)
    (hfail : stageAttempt reg inst spec
      (runStagesLoop reg inst pre (seedContext cfg (pre ++ spec :: next :: post) ctx) []).1 =
        .error e)
    (hcont : spec.on_failure.getD "abort" = "continue")
    (hnext : stageAttempt reg inst next
      (runStagesLoop reg inst pre (seedContext cfg (pre ++ spec :: next :: post) ctx) []).1 =
        .ok ctxN)
    (hspost : spec.name ∉ post.map StageSpec.name)
    (hsn : spec.name ≠ next.name)
    (hnpost : next.name ∉ post.map StageSpec.name) :
    ∃ rctx, PipelineOrchestrator.run (.ok loaded) reg inst cfg false ctx = .ok rctx ∧
      ∃ m, alistLookup rctx "pipeline_results" = some (.dict m) ∧
        alistLookup m spec.name = some (resultRecord ⟨"failed", some e⟩) ∧
        alistLookup m next.name = some (resultRecord ⟨"success", none⟩) := by
  have hemp : ¬ ((pre ++ spec :: next :: post).isEmpty = true) := by cases pre <;> simp
  have hcont' : spec.on_failure.getD "abort" ≠ "abort" := by rw [hcont]; decide
  rw [run_exec_eq, henab, if_neg hemp,
    runStagesLoop_append reg inst pre (spec :: next :: post) _ [] hreach,
    runStagesLoop_cons_fail_continue reg inst spec (next :: post) _ _ e hfail hcont',
    runStagesLoop_cons_ok reg inst next post _ ctxN _ hnext]
  refine ⟨_, rfl, _, alistLookup_insert_self _ _ _, ?_, ?_⟩
  · rw [alistLookup_map_snd, runStagesLoop_lookup_not_mem reg inst _ post _ _ hspost,
      alistLookup_insert_ne _ _ _ _ hsn, alistLookup_insert_self]
    rfl
  · rw [alistLookup_map_snd, runStagesLoop_lookup_not_mem reg inst _ post _ _ hnpost,
      alistLookup_insert_self]
    rfl

/-- C6 witness: stage a fails with on_failure continue, stage b then
runs and reports success while a is recorded failed with its error. -/
theorem claim_C6_witness :
    ∃ rctx, PipelineOrchestrator.run (.ok []) regW instW cfgABcont false [] = .ok rctx ∧
      ∃ m, alistLookup rctx "pipeline_results" = some (.dict m) ∧
        alistLookup m "a" = some (resultRecord ⟨"failed", some "boom"⟩) ∧
        alistLookup m "b" = some (resultRecord ⟨"success", none⟩) :=
  claim_C6_theorem [] regW instW cfgABcont [] [] specAcont specB [] "boom"
    (alistInsert (seedContext cfgABcont [specAcont, specB] []) "ran" (.str "yes"))
    rfl rfl rfl rfl rfl (by decide) (by decide) (by decide)

/-- C8: validate converts any error raised while resolving a stage or
while calling its validate into exactly one synthetic issue string for
that stage (validate itself is a total function: nothing propagates);
a stage whose attempt returns an empty issue list is omitted from the
map; and run() is insensitive to every stage validateFn behaviour, so
validation can never prevent execution. -/
theorem claim_C8_theorem (reg : ComponentRegistry)
    (inst : Component → Except String Stage) (cfg : PipelineConfig) (ctx : Ctx)
    (hnodup : ((getEnabledStages cfg).map StageSpec.name).Nodup) :
    (∀ spec ∈ getEnabledStages cfg, ∀ err,
      stageValidateAttempt reg inst spec ctx = .error err →
      alistLookup (PipelineOrchestrator.validate reg inst cfg ctx) spec.name =
        some ["Error resolving stage: " ++ err]) ∧
    (∀ spec ∈ getEnabledStages cfg, ∀ issues,
      stageValidateAttempt reg inst spec ctx = .ok issues →
      alistLookup (PipelineOrchestrator.validate reg inst cfg ctx) spec.name =
        (if issues.isEmpty then none else some issues)) ∧
    (∀ (pluginLoad : Except String (List String)) (dry : Bool) (ctx0 : Ctx)
        (inst2 : Component → Except String Stage),
      (∀ c, (inst c).map Stage.runFn = (inst2 c).map Stage.runFn) →
      PipelineOrchestrator.run pluginLoad reg inst cfg dry ctx0 =
        PipelineOrchestrator.run pluginLoad reg inst2 cfg dry ctx0) := by
  refine ⟨?_, ?_, ?_⟩
  · intro spec hmem err herr
    rw [validate_eq_specFold,
      specFold_lookup_mem (fun s => validateEntry reg inst s ctx) spec _ hmem hnodup [] rfl]
    simp [validateEntry, herr]
  · intro spec hmem issues hok
    rw [validate_eq_specFold,
      specFold_lookup_mem (fun s => validateEntry reg inst s ctx) spec _ hmem hnodup [] rfl]
    simp only [validateEntry, hok]
  · intro pluginLoad dry ctx0 inst2 hagree
    cases pluginLoad with
    | error e => rfl
    | ok loaded =>
        cases dry
        · rw [run_exec_eq, run_exec_eq, runStagesLoop_congr reg inst inst2 hagree]
        · rw [run_dry_eq, run_dry_eq]

/-- C8 witness: resolving the unregistered stage zzz yields exactly one
synthetic issue naming the resolution error, while stage b reports its
own issue list unchanged. -/
theorem claim_C8_witness :
    alistLookup (PipelineOrchestrator.validate regW instW cfgVal []) "zzz" =
      some ["Error resolving stage: Stage zzz not found in registry. Available stages: a, b"] ∧
    alistLookup (PipelineOrchestrator.validate regW instW cfgVal []) "b" = some ["issue"] := by
  have h := claim_C8_theorem regW instW cfgVal [] (by decide)
  refine ⟨h.1 ⟨"zzz", none, none, none⟩ (List.mem_cons_self _ _) _ rfl, ?_⟩
  exact h.2.1 specB (List.mem_cons_of_mem _ (List.mem_cons_self _ _)) ["issue"] rfl

/-- C4 counterexample: the single enabled stage is named `a` and carries
a params field (the empty dict), and an override token list is present
(the empty list); yet after seeding, the stage_params sub-map has no
entry for `a` and no hydra_overrides key exists — the code only stores
truthy (non-empty) params and override lists, contradicting the claim
that every enabled spec contributes its params field and that any
present override list is stored. -/
theorem claim_C4_counterexample :
    getEnabledStages cfgEmptyParams = [⟨"a", none, some [], none⟩] ∧
    cfgEmptyParams.hydra_overrides = some [] ∧
    PipelineOrchestrator.run (.ok []) registryInit instNone cfgEmptyParams true [] =
      .ok [("config_path", CVal.str "../configs"), ("stage_params", CVal.dict [])] ∧
    alistLookup (stageParamsMap (getEnabledStages cfgEmptyParams)) "a" = none ∧
    alistLookup (seedContext cfgEmptyParams (getEnabledStages cfgEmptyParams) [])
      "hydra_overrides" = none :=
  ⟨rfl, rfl, rfl, rfl, rfl⟩

/-- C4 (amended): the seeded context holds the resolved base config path
(default "../configs") and the stage_params sub-map, which contains, for
each enabled stage spec whose params dict is non-empty, that dict keyed
by the stage name — specs with an empty or absent params field are
omitted; the override token list is stored under hydra_overrides only
when it is non-empty. -/
theorem claim_C4_theorem (cfg : PipelineConfig) (ctx : Ctx)
    (hnodup : ((getEnabledStages cfg).map StageSpec.name).Nodup)
    (hctx : alistLookup ctx "hydra_overrides" = none) :
    alistLookup (seedContext cfg (getEnabledStages cfg) ctx) "config_path" =
      some (.str (cfg.config_path.getD "../configs")) ∧
    alistLookup (seedContext cfg (getEnabledStages cfg) ctx) "stage_params" =
      some (.dict (stageParamsMap (getEnabledStages cfg))) ∧
    (∀ spec ∈ getEnabledStages cfg,
      alistLookup (stageParamsMap (getEnabledStages cfg)) spec.name =
        (if (spec.params.getD []).isEmpty then none
         else some (.dict (spec.params.getD [])))) ∧
    (¬ (cfg.hydra_overrides.getD []).isEmpty →
      alistLookup (seedContext cfg (getEnabledStages cfg) ctx) "hydra_overrides" =
        some (.list ((cfg.hydra_overrides.getD []).map CVal.str))) ∧
    ((cfg.hydra_overrides.getD []).isEmpty →
      alistLookup (seedContext cfg (getEnabledStages cfg) ctx) "hydra_overrides" = none) := by
  refine ⟨?_, ?_, ?_, ?_, ?_⟩
  · rw [seedContext_eq]
    by_cases hov : (cfg.hydra_overrides.getD []).isEmpty
    · rw [if_pos hov, alistLookup_insert_ne _ _ _ _ (by decide), alistLookup_insert_self]
    · rw [if_neg hov, alistLookup_insert_ne _ _ _ _ (by decide),
        alistLookup_insert_ne _ _ _ _ (by decide), alistLookup_insert_self]
  · rw [seedContext_eq]
    by_cases hov : (cfg.hydra_overrides.getD []).isEmpty
    · rw [if_pos hov, alistLookup_insert_self]
    · rw [if_neg hov, alistLookup_insert_ne _ _ _ _ (by decide), alistLookup_insert_self]
  · intro spec hmem
    rw [stageParamsMap_eq_specFold]
    rw [specFold_lookup_mem paramsEntry spec _ hmem hnodup [] rfl]
    rfl
  · intro hov
    rw [seedContext_eq, if_neg hov, alistLookup_insert_self]
  · intro hov
    rw [seedContext_eq, if_pos hov, alistLookup_insert_ne _ _ _ _ (by decide),
      alistLookup_insert_ne _ _ _ _ (by decide)]
    exact hctx

/-- C4 witness: on a pipeline with one stage carrying non-empty params
and a non-empty override list, the seeded context holds the configured
path, the params keyed by the stage name, and the override list. -/
theorem claim_C4_witness :
    alistLookup (seedContext cfgParams (getEnabledStages cfgParams) []) "config_path" =
      some (.str "cfgs") ∧
    alistLookup (stageParamsMap (getEnabledStages cfgParams)) "a" =
      some (.dict [("k", .str "v")]) ∧
    alistLookup (seedContext cfgParams (getEnabledStages cfgParams) []) "hydra_overrides" =
      some (.list [.str "x=1"]) := by
  have h := claim_C4_theorem cfgParams [] (by decide) rfl
  refine ⟨h.1, ?_, h.2.2.2.1 (by decide)⟩
  exact h.2.2.1 ⟨"a", none, some [("k", .str "v")], none⟩ (List.mem_cons_self _ _)

/-- C7: registering an already-present (category, name) without overwrite
raises the duplicate-name error and leaves the registry unchanged; with
overwrite the mapping is replaced so `get` returns the newer component;
an unknown category raises the invalid-category error and an empty name
the invalid-name error. -/
theorem claim_C7_theorem (r : ComponentRegistry) (category name : String) (cls : Component) :
    (category ∈ VALID_CATEGORIES → name ≠ "" → r.has category name = true →
      r.register category name cls false = .error (.duplicateName category name) ∧
      applyRegOp r (.regOp category name cls false) = r) ∧
    (category ∈ VALID_CATEGORIES → name ≠ "" →
      r.register category name cls true =
        .ok ⟨alistInsert r.components category
              (alistInsert (r.catTable category) name cls)⟩ ∧
      (ComponentRegistry.mk (alistInsert r.components category
          (alistInsert (r.catTable category) name cls))).get category name = .ok cls) ∧
    (∀ ow : Bool, category ∉ VALID_CATEGORIES →
      r.register category name cls ow = .error (.invalidCategory category)) ∧
    (∀ ow : Bool, category ∈ VALID_CATEGORIES →
      r.register category "" cls ow = .error (.invalidName "")) := by
  refine ⟨?_, ?_, ?_, ?_⟩
  · intro hcat hname hhas
    have hsome : (alistLookup (r.catTable category) name).isSome = true := by
      simpa [ComponentRegistry.has, hcat] using hhas
    have hreg : r.register category name cls false = .error (.duplicateName category name) := by
      simp [ComponentRegistry.register, hcat, hname, hsome]
    exact ⟨hreg, by simp [applyRegOp, hreg]⟩
  · intro hcat hname
    constructor
    · simp [ComponentRegistry.register, hcat, hname]
    · simp [ComponentRegistry.get, hcat, ComponentRegistry.catTable,
        alistLookup_insert_self]
  · intro ow hcat
    simp [ComponentRegistry.register, hcat]
  · intro ow hcat
    simp [ComponentRegistry.register, hcat]

/-- C7 witness: on the stage category of a registry holding `a`,
re-registering `a` without overwrite fails with the duplicate-name
error, overwriting replaces the component, and the invalid-category and
invalid-name errors fire. -/
theorem claim_C7_witness :
    regW.register "stage" "a" 9 false = .error (.duplicateName "stage" "a") ∧
    regW.register "bogus" "a" 9 true = .error (.invalidCategory "bogus") ∧
    regW.register "stage" "" 9 true = .error (.invalidName "") := by
  refine ⟨?_, ?_, ?_⟩
  · exact ((claim_C7_theorem regW "stage" "a" 9).1 (by decide) (by decide) (by decide)).1
  · exact (claim_C7_theorem regW "bogus" "a" 9).2.2.1 true (by decide)
  · exact (claim_C7_theorem regW "stage" "" 9).2.2.2 true (by decide)

/-- C10: unregister and clear never raise (they are total, with guarded
no-ops for an unknown category or an absent name), and any sequence of
register / unregister / clear calls starting from a fresh registry
leaves the table with exactly the five valid categories as keys. -/
theorem claim_C10_theorem :
    (∀ ops : List RegOp,
      alistKeys ((ops.foldl applyRegOp registryInit).components) = VALID_CATEGORIES) ∧
    (∀ (r : ComponentRegistry) (category name : String),
      alistLookup r.components category = none → r.unregister category name = r) ∧
    (∀ (r : ComponentRegistry) (category name : String)
        (table : List (String × Component)),
      alistLookup r.components category = some table → alistLookup table name = none →
      r.unregister category name = r) ∧
    (∀ (r : ComponentRegistry) (category : String),
      alistLookup r.components category = none → r.clear (some category) = r) := by
  refine ⟨?_, ?_, ?_, ?_⟩
  · intro ops
    exact foldl_applyRegOp_keys ops registryInit rfl
  · intro r category name hl
    simp [ComponentRegistry.unregister, hl]
  · intro r category name table hl hn
    simp [ComponentRegistry.unregister, hl, hn]
  · intro r category hl
    simp [ComponentRegistry.clear, hl]

/-- C10 witness: a register / unregister / clear sequence mixing valid
and invalid categories keeps exactly the five category keys, and
unregister on an unknown category or an absent name is a no-op. -/
theorem claim_C10_witness :
    alistKeys (([RegOp.regOp "stage" "a" 0 false, RegOp.unregOp "bogus" "a",
        RegOp.clearOp (some "nope"), RegOp.clearOp none].foldl applyRegOp
        registryInit).components) = VALID_CATEGORIES ∧
    registryInit.unregister "bogus" "x" = registryInit ∧
    registryInit.unregister "stage" "x" = registryInit ∧
    registryInit.clear (some "bogus") = registryInit := by
  refine ⟨?_, ?_, ?_, ?_⟩
  · exact claim_C10_theorem.1 _
  · exact claim_C10_theorem.2.1 registryInit "bogus" "x" (by decide)
  · exact claim_C10_theorem.2.2.1 registryInit "stage" "x" [] (by decide) (by decide)
  · exact claim_C10_theorem.2.2.2 registryInit "bogus" (by decide)

/-- C1 counterexample: when the plugin file loads and exposes a callable
register entry point but that entry point raises, the load fails with a
PluginLoadError, yet the synthesized module name stays in the
loaded-module table — the register-raising path performs no eviction,
contradicting the claim that every failure evicts the partial state. -/
theorem claim_C1_counterexample :
    (load_plugin_from_path envRegisterRaises [] "p.py").1 =
      .error "Error in register() of plugin p.py: boom" ∧
    (load_plugin_from_path envRegisterRaises [] "p.py").2 = ["dima_plugin_p"] ∧
    "dima_plugin_p" ∈ (load_plugin_from_path envRegisterRaises [] "p.py").2 :=
  ⟨rfl, rfl, by decide⟩

/-- C1 (amended): every failing step raises a PluginLoadError with its
specific message; a failure before the module is created (missing file,
wrong extension, no module spec) leaves the loaded-module table
untouched; a failure while executing the module top level or when the
register entry point is missing or not callable evicts the synthesized
name; but when the register entry point itself raises, the synthesized
name remains in the table. -/
theorem claim_C1_theorem (env : PluginEnv) (sysModules : List String) (path : String) :
    (¬ env.isFile path = true →
      (load_plugin_from_path env sysModules path).1 =
        .error ("Plugin file not found: " ++ path) ∧
      (load_plugin_from_path env sysModules path).2 = sysModules) ∧
    (env.isFile path = true → ¬ endsWithPy path = true →
      (load_plugin_from_path env sysModules path).1 =
        .error ("Plugin file must be a .py file: " ++ path) ∧
      (load_plugin_from_path env sysModules path).2 = sysModules) ∧
    (env.isFile path = true → endsWithPy path = true → ¬ env.specOk path = true →
      (load_plugin_from_path env sysModules path).1 =
        .error ("Could not create module spec for: " ++ path) ∧
      (load_plugin_from_path env sysModules path).2 = sysModules) ∧
    (env.isFile path = true → endsWithPy path = true → env.specOk path = true →
      ¬ env.execOk path = true →
      (load_plugin_from_path env sysModules path).1 =
        .error ("Error executing plugin " ++ path ++ ": " ++ env.execErr path) ∧
      synthesizedName path ∉ (load_plugin_from_path env sysModules path).2) ∧
    (env.isFile path = true → endsWithPy path = true → env.specOk path = true →
      env.execOk path = true → ¬ env.hasCallableRegister path = true →
      (load_plugin_from_path env sysModules path).1 =
        .error ("Plugin " ++ path ++ " must define a callable register(registry) function.") ∧
      synthesizedName path ∉ (load_plugin_from_path env sysModules path).2) ∧
    (env.isFile path = true → endsWithPy path = true → env.specOk path = true →
      env.execOk path = true → env.hasCallableRegister path = true →
      ¬ env.registerOk path = true →
      (load_plugin_from_path env sysModules path).1 =
        .error ("Error in register() of plugin " ++ path ++ ": " ++ env.registerErr path) ∧
      (load_plugin_from_path env sysModules path).2 =
        insertModule sysModules (synthesizedName path) ∧
      synthesizedName path ∈ (load_plugin_from_path env sysModules path).2) := by
  refine ⟨?_, ?_, ?_, ?_, ?_, ?_⟩
  · intro h1
    refine ⟨?_, ?_⟩ <;> simp [load_plugin_from_path, h1]
  · intro h1 h2
    refine ⟨?_, ?_⟩ <;> simp [load_plugin_from_path, h1, h2]
  · intro h1 h2 h3
    refine ⟨?_, ?_⟩ <;> simp [load_plugin_from_path, h1, h2, h3]
  · intro h1 h2 h3 h4
    refine ⟨?_, ?_⟩
    · simp [load_plugin_from_path, h1, h2, h3, h4]
    · have hsnd : (load_plugin_from_path env sysModules path).2 =
          removeModule (insertModule sysModules (synthesizedName path))
            (synthesizedName path) := by
        simp [load_plugin_from_path, h1, h2, h3, h4]
      rw [hsnd]
      exact not_mem_removeModule _ _
  · intro h1 h2 h3 h4 h5
    refine ⟨?_, ?_⟩
    · simp [load_plugin_from_path, h1, h2, h3, h4, h5]
    · have hsnd : (load_plugin_from_path env sysModules path).2 =
          removeModule (insertModule sysModules (synthesizedName path))
            (synthesizedName path) := by
        simp [load_plugin_from_path, h1, h2, h3, h4, h5]
      rw [hsnd]
      exact not_mem_removeModule _ _
  · intro h1 h2 h3 h4 h5 h6
    have hsnd : (load_plugin_from_path env sysModules path).2 =
        insertModule sysModules (synthesizedName path) := by
      simp [load_plugin_from_path, h1, h2, h3, h4, h5, h6]
    refine ⟨?_, hsnd, ?_⟩
    · simp [load_plugin_from_path, h1, h2, h3, h4, h5, h6]
    · rw [hsnd]
      exact mem_insertModule _ _

/-- C1 witness: the register-raising load fails with the wrapped error,
with the synthesized module name retained; an execution failure on the
same file is evicted. -/
theorem claim_C1_witness :
    ((load_plugin_from_path envRegisterRaises ["keep"] "p.py").1 =
      .error ("Error in register() of plugin p.py: " ++ envRegisterRaises.registerErr "p.py") ∧
     (load_plugin_from_path envRegisterRaises ["keep"] "p.py").2 =
      insertModule ["keep"] (synthesizedName "p.py") ∧
     synthesizedName "p.py" ∈ (load_plugin_from_path envRegisterRaises ["keep"] "p.py").2) ∧
    ((load_plugin_from_path envExecRaises ["keep"] "p.py").1 =
      .error ("Error executing plugin p.py: " ++ envExecRaises.execErr "p.py") ∧
     synthesizedName "p.py" ∉ (load_plugin_from_path envExecRaises ["keep"] "p.py").2) :=
  ⟨(claim_C1_theorem envRegisterRaises ["keep"] "p.py").2.2.2.2.2
      rfl rfl rfl rfl rfl (by decide),
   (claim_C1_theorem envExecRaises ["keep"] "p.py").2.2.2.1
      rfl rfl rfl (by decide)⟩

/-- C9 counterexample: two distinct plugin files with the same basename
receive the same synthesized module name, and loading the second while
the first is loaded lands on the already-present name instead of a fresh
one — the synthesized name is not collision-free. -/
theorem claim_C9_counterexample :
    synthesizedName "a/foo.py" = synthesizedName "b/foo.py" ∧
    "a/foo.py" ≠ "b/foo.py" ∧
    (load_plugin_from_path envAllOk [] "a/foo.py").2 = ["dima_plugin_foo"] ∧
    (load_plugin_from_path envAllOk ["dima_plugin_foo"] "b/foo.py").1 =
      .ok "dima_plugin_foo" ∧
    (load_plugin_from_path envAllOk ["dima_plugin_foo"] "b/foo.py").2 =
      ["dima_plugin_foo"] :=
  ⟨rfl, by decide, rfl, rfl, rfl⟩

/-- C9 (amended): the synthesized module name is the fixed prefix
`dima_plugin_` followed by the file basename stem; it therefore can
never collide with a loaded module whose name lacks that prefix, and two
plugin files with distinct basename stems receive distinct names — but
files sharing a basename stem share the synthesized name. -/
theorem claim_C9_theorem (path p1 p2 m : String) :
    ((synthesizedName path).toList.take 12 = ("dima_plugin_").toList) ∧
    (splitextStem (basename p1) ≠ splitextStem (basename p2) →
      synthesizedName p1 ≠ synthesizedName p2) ∧
    (m.toList.take 12 ≠ ("dima_plugin_").toList → synthesizedName path ≠ m) := by
  refine ⟨synthesizedName_take12 path, ?_, ?_⟩
  · intro hst heq
    apply hst
    have hdata := congrArg String.data heq
    rw [show synthesizedName p1 = "dima_plugin_" ++ splitextStem (basename p1) from rfl,
      show synthesizedName p2 = "dima_plugin_" ++ splitextStem (basename p2) from rfl,
      String.data_append, String.data_append] at hdata
    exact string_toList_inj _ _ (List.append_cancel_left hdata)
  · intro hm heq
    apply hm
    rw [← heq]
    exact synthesizedName_take12 path

/-- C9 witness: distinct basename stems give distinct synthesized names,
and a synthesized name never equals a module without the plugin prefix. -/
theorem claim_C9_witness :
    synthesizedName "a/x.py" ≠ synthesizedName "a/y.py" ∧
    synthesizedName "a/x.py" ≠ "os" :=
  ⟨(claim_C9_theorem ("a/x.py") ("a/x.py") ("a/y.py") ("os")).2.1 (by decide),
   (claim_C9_theorem ("a/x.py") ("a/x.py") ("a/y.py") ("os")).2.2 (by decide)⟩

end DiMA
